import Mathlib

/-!
Verification of the orchestration core.

A shallow embedding, in Lean 4, of the orchestration engine of this
repository: the structured-output extraction and retrying inference wrapper
(`src/core/llm.py`), the dependency-aware parallel step executors
(`src/agents/executor.py`, `src/agents/executor_v2.py`), the reviewer status
mapping (`src/agents/reviewer.py`) and the orchestration loop
(`src/core/agent_runner.py`).

Python strings are modeled as `List Char`; Python dicts as association
lists; external collaborators (the Ollama backend, the capability tools,
the memory store) as oracle functions supplied to each definition, exactly
where the source calls out to them.  Raised exceptions are modeled with
`Except`.  Every definition is executable so theorems about concrete inputs
reduce by `rfl`/`decide`.
-/

/-! ## Character and string helpers (Python `str` operations on `List Char`) -/

/-- The character `\x7b` (an opening curly brace). -/
def lbrace : Char := Char.ofNat 123

/-- The character `\x7d` (a closing curly brace). -/
def rbrace : Char := Char.ofNat 125

/-- Whitespace as stripped by Python `str.strip` and skipped by the JSON
reader (restricted to the four ASCII whitespace characters that occur in
the modeled payloads). -/
def isWs (c : Char) : Bool := c == ' ' || c == '\n' || c == '\t' || c == '\r'

/-- Drop leading whitespace. -/
def skipWs : List Char → List Char
  | [] => []
  | c :: rest => if isWs c then skipWs rest else c :: rest

/-- Python `str.strip()`: whitespace removed from both ends. -/
def pyStrip (s : List Char) : List Char :=
  ((s.dropWhile isWs).reverse.dropWhile isWs).reverse

/-- Python `pat in text`: does `pat` occur as a contiguous substring? -/
def hasSub (pat : List Char) : List Char → Bool
  | [] => pat.isEmpty
  | c :: rest => List.isPrefixOf pat (c :: rest) || hasSub pat rest

/-- Python `text.split(pat)[1]`-like: everything after the first occurrence
of `pat` (empty when `pat` does not occur). -/
def afterFirst (pat : List Char) : List Char → List Char
  | [] => []
  | c :: rest =>
      if List.isPrefixOf pat (c :: rest) then (c :: rest).drop pat.length
      else afterFirst pat rest

/-- Python `text.split(pat)[0]`: everything before the first occurrence of
`pat` (all of `text` when `pat` does not occur). -/
def beforeFirst (pat : List Char) : List Char → List Char
  | [] => []
  | c :: rest =>
      if List.isPrefixOf pat (c :: rest) then [] else c :: beforeFirst pat rest

/-! ## JSON values and `json.loads`

`Json` models the Python values `json.loads` returns.  The reader below is
the model of `json.loads`: it accepts the JSON subset the repository's
structured payloads use (objects, arrays, strings with the common escapes,
integer numerals, `true`/`false`/`null`) and requires the whole input to be
consumed up to trailing whitespace, as `json.loads` does. -/

inductive Json where
  | null : Json
  | bool (b : Bool) : Json
  | num (n : Int) : Json
  | str (s : List Char) : Json
  | arr (elems : List Json) : Json
  | obj (fields : List (List Char × Json)) : Json

/-- The body of a JSON string literal, after its opening quote: the decoded
content and the rest of the input after the closing quote. -/
def readStringBody : Nat → List Char → Option (List Char × List Char)
  | 0, _ => none
  | _ + 1, [] => none
  | fuel + 1, c :: rest =>
      if c == '"' then some ([], rest)
      else if c == '\\' then
        match rest with
        | [] => none
        | e :: rest2 =>
            let dec : Option Char :=
              if e == '"' then some '"'
              else if e == '\\' then some '\\'
              else if e == '/' then some '/'
              else if e == 'n' then some '\n'
              else if e == 't' then some '\t'
              else if e == 'r' then some '\r'
              else none
            match dec with
            | none => none
            | some d =>
                match readStringBody fuel rest2 with
                | some (s, r) => some (d :: s, r)
                | none => none
      else
        match readStringBody fuel rest with
        | some (s, r) => some (c :: s, r)
        | none => none

/-- The value of a nonempty run of leading decimal digits, with the rest of
the input. -/
def readDigits (acc : Nat) : List Char → Nat × List Char
  | [] => (acc, [])
  | c :: rest =>
      if c.isDigit then readDigits (acc * 10 + (c.toNat - 48)) rest
      else (acc, c :: rest)

/-- What `readPart` is asked to read: one value, the field list of an
object (after its opening brace and first non-close character), or the
element list of an array. A single non-mutual function keeps the reader
structurally recursive on its fuel, so it reduces inside the kernel. -/
inductive ReadKind where
  | val : ReadKind
  | objFields : ReadKind
  | arrElems : ReadKind

/-- The recursive JSON reader. For `.val` it returns the value read; for
`.objFields` a `Json.obj` of the remaining `"key": value` pairs up to the
closing brace; for `.arrElems` a `Json.arr` of the remaining elements up
to the closing bracket. -/
def readPart : Nat → ReadKind → List Char → Option (Json × List Char)
  | 0, _, _ => none
  | fuel + 1, .val, input =>
      match skipWs input with
      | [] => none
      | c :: rest =>
          if c == '"' then
            match readStringBody (rest.length + 1) rest with
            | some (s, r) => some (.str s, r)
            | none => none
          else if c == lbrace then
            match skipWs rest with
            | [] => none
            | c2 :: rest2 =>
                if c2 == rbrace then some (.obj [], rest2)
                else readPart fuel .objFields (c2 :: rest2)
          else if c == '[' then
            match skipWs rest with
            | [] => none
            | c2 :: rest2 =>
                if c2 == ']' then some (.arr [], rest2)
                else readPart fuel .arrElems (c2 :: rest2)
          else if c == 't' then
            if List.isPrefixOf "rue".data rest then some (.bool true, rest.drop 3)
            else none
          else if c == 'f' then
            if List.isPrefixOf "alse".data rest then some (.bool false, rest.drop 4)
            else none
          else if c == 'n' then
            if List.isPrefixOf "ull".data rest then some (.null, rest.drop 3)
            else none
          else if c == '-' then
            match rest with
            | d :: _ =>
                if d.isDigit then
                  let p := readDigits 0 rest
                  some (.num (-(p.1 : Int)), p.2)
                else none
            | [] => none
          else if c.isDigit then
            let p := readDigits 0 (c :: rest)
            some (.num (p.1 : Int), p.2)
          else none
  | fuel + 1, .objFields, input =>
      match skipWs input with
      | [] => none
      | c :: rest =>
          if c == '"' then
            match readStringBody (rest.length + 1) rest with
            | none => none
            | some (key, r1) =>
                match skipWs r1 with
                | [] => none
                | c2 :: r2 =>
                    if c2 == ':' then
                      match readPart fuel .val r2 with
                      | none => none
                      | some (v, r3) =>
                          match skipWs r3 with
                          | [] => none
                          | c3 :: r4 =>
                              if c3 == ',' then
                                match readPart fuel .objFields r4 with
                                | some (.obj fs, r5) => some (.obj ((key, v) :: fs), r5)
                                | _ => none
                              else if c3 == rbrace then some (.obj [(key, v)], r4)
                              else none
                    else none
          else none
  | fuel + 1, .arrElems, input =>
      match readPart fuel .val input with
      | none => none
      | some (v, r1) =>
          match skipWs r1 with
          | [] => none
          | c :: r2 =>
              if c == ',' then
                match readPart fuel .arrElems r2 with
                | some (.arr es, r3) => some (.arr (v :: es), r3)
                | _ => none
              else if c == ']' then some (.arr [v], r2)
              else none

/-- The model of `json.loads`: one value, whole input consumed up to
trailing whitespace; `none` models a raised `json.JSONDecodeError`. -/
def jsonLoads (s : List Char) : Option Json :=
  match readPart (s.length + 1) .val s with
  | some (j, rest) => if (skipWs rest).isEmpty then some j else none
  | none => none

/-! ## `extract_json` (src/core/llm.py lines 143-183)

The extraction grammar applied to free-form model output: (a) when the tag
` ```json ` occurs, the text between it and the next ` ``` ` is stripped and
handed to `json.loads`; (b) otherwise, when an opening brace occurs, the
scan from the first opening brace tracks nesting depth and hands the first
balanced span to `json.loads` (braces inside string literals count too,
exactly as in the source's character loop); (c) otherwise, or when the scan
never balances, `json.JSONDecodeError` is raised. A `json.loads` failure in
(a) or (b) propagates: the source never falls back from (a) to (b). -/

/-- The error raised by the model of `extract_json`: `loadsFailed payload`
is a `json.JSONDecodeError` raised by `json.loads` on the extracted
candidate `payload`; `noJsonFound text` is the error raised at the end of
`extract_json` (lines 179-183) when no candidate exists. -/
inductive JsonError where
  | loadsFailed (payload : List Char) : JsonError
  | noJsonFound (text : List Char) : JsonError

/-- The fence tag ` ```json ` the source searches for (line 160). -/
def fenceTag : List Char := "```json".data

/-- A closing fence ` ``` ` (line 161). -/
def fence : List Char := "```".data

/-- The balanced-brace scan (lines 166-176), started at the first opening
brace: depth is incremented at every opening and decremented at every
closing brace; the span ends where depth returns to zero. `none` models
the loop running off the end of the text without balancing. -/
def braceSpan : List Char → Nat → List Char → Option (List Char)
  | [], _, _ => none
  | c :: rest, depth, acc =>
      if c == lbrace then braceSpan rest (depth + 1) (acc ++ [c])
      else if c == rbrace then
        if depth - 1 == 0 then some (acc ++ [c])
        else braceSpan rest (depth - 1) (acc ++ [c])
      else braceSpan rest depth (acc ++ [c])

/-- `extract_json(text)` (lines 143-183). -/
def extractJson (text : List Char) : Except JsonError Json :=
  if hasSub fenceTag text then
    let payload := pyStrip (beforeFirst fence (afterFirst fenceTag text))
    match jsonLoads payload with
    | some j => .ok j
    | none => .error (.loadsFailed payload)
  else if hasSub [lbrace] text then
    match braceSpan (text.dropWhile (fun c => !(c == lbrace))) 0 [] with
    | some span =>
        match jsonLoads span with
        | some j => .ok j
        | none => .error (.loadsFailed span)
    | none => .error (.noJsonFound text)
  else .error (.noJsonFound text)

/-! ## `call_llm` (src/core/llm.py lines 44-136)

The Ollama backend is an external collaborator (spec section 6): it is
modeled as an oracle giving the outcome of the `ollama.chat` call made at
each attempt (attempts numbered from 0). One attempt is the body of
`_call_with_retry`: on a response, `extract_json` runs when `return_json`
is set and a `json.JSONDecodeError` propagates; a `ConnectionError`,
`TimeoutError` or `OSError` propagates as a classified-transient failure.

The retry loop modeled is the explicit manual-fallback loop of lines
111-133; the tenacity decorator of lines 68-73 implements the same policy
(retry exactly on `(ConnectionError, TimeoutError, OSError)`, stop after
`max_retries` attempts, re-raise), so the claims settled below hold of
both paths. The backoff sleep recorded for the manual loop is
`min(10, 2 ** attempt)` seconds (line 118). -/

/-- Outcome of the `ollama.chat` call of one attempt. -/
inductive BackendReply where
  | transient (msg : List Char) : BackendReply
  | reply (content : List Char) : BackendReply

/-- What a successful `call_llm` evaluates to: the raw response text, or
the parsed payload when `return_json` is set. -/
inductive LLMValue where
  | text (s : List Char) : LLMValue
  | json (j : Json) : LLMValue

/-- An exception propagating out of `call_llm`. -/
inductive LLMError where
  | connection (msg : List Char) : LLMError
  | jsonDecode (e : JsonError) : LLMError

/-- The `ConnectionError` message raised at lines 126-130 once all
attempts failed transiently (host/model details elided). -/
def exhaustedMsg (maxRetries : Nat) : List Char :=
  ("Ollama nao respondeu apos " ++ toString maxRetries ++ " tentativas").data

/-- One attempt: the body of `_call_with_retry` (lines 74-108). -/
inductive AttemptResult where
  | ok (v : LLMValue) : AttemptResult
  | transient (msg : List Char) : AttemptResult
  | malformed (e : JsonError) : AttemptResult

/-- Run one attempt against the backend oracle. -/
def llmAttempt (backend : Nat → BackendReply) (returnJson : Bool)
    (attempt : Nat) : AttemptResult :=
  match backend attempt with
  | .transient m => .transient m
  | .reply content =>
      if returnJson then
        match extractJson content with
        | .ok j => .ok (.json j)
        | .error e => .malformed e
      else .ok (.text content)

/-- What a whole `call_llm` invocation did: its result, how many
`ollama.chat` calls were made, and the backoff sleeps (in seconds) taken
between attempts. -/
structure LLMCallTrace where
  result : Except LLMError LLMValue
  backendCalls : Nat
  sleeps : List Nat

/-- The manual retry loop (lines 111-133). The first argument is the
number of loop iterations left, so the attempt index is
`maxRetries - remaining`; the `0` case is the fall-through to line 136
(one bare call), reachable only when `max_retries` is `0` and the `for`
loop body never ran. A `json.JSONDecodeError` is raised immediately
(lines 131-133): it is not in the retried exception classes. -/
def callLLMLoop (backend : Nat → BackendReply) (returnJson : Bool)
    (maxRetries : Nat) : Nat → Nat → List Nat → LLMCallTrace
  | 0, attempt, sleeps =>
      match llmAttempt backend returnJson attempt with
      | .ok v => ⟨.ok v, attempt + 1, sleeps⟩
      | .malformed e => ⟨.error (.jsonDecode e), attempt + 1, sleeps⟩
      | .transient m => ⟨.error (.connection m), attempt + 1, sleeps⟩
  | remaining + 1, attempt, sleeps =>
      match llmAttempt backend returnJson attempt with
      | .ok v => ⟨.ok v, attempt + 1, sleeps⟩
      | .malformed e => ⟨.error (.jsonDecode e), attempt + 1, sleeps⟩
      | .transient _ =>
          if remaining == 0 then
            ⟨.error (.connection (exhaustedMsg maxRetries)), attempt + 1, sleeps⟩
          else
            callLLMLoop backend returnJson maxRetries remaining (attempt + 1)
              (sleeps ++ [min 10 (2 ^ attempt)])

/-- `call_llm(user_prompt, return_json=returnJson, max_retries=maxRetries)`
against the backend oracle. -/
def callLLM (backend : Nat → BackendReply) (returnJson : Bool)
    (maxRetries : Nat) : LLMCallTrace :=
  callLLMLoop backend returnJson maxRetries maxRetries 0 []

/-! ## Reviewer status mapping (src/agents/reviewer.py lines 84-94) -/

/-- `ReviewStatus` (src/core/models.py lines 44-48). -/
inductive ReviewStatus where
  | approved : ReviewStatus
  | needsRefinement : ReviewStatus
  | failed : ReviewStatus
deriving DecidableEq

/-- The status mapping of `ReviewerAgent.review`:
`response_json.get("status", "needs_revision").lower()` followed by the
exact-match chain of lines 86-91. `none` models a response object with no
`status` key; `Char.toLower` agrees with Python `str.lower` on the ASCII
status strings involved. -/
def mapReviewStatus (statusField : Option (List Char)) : ReviewStatus :=
  let s := (statusField.getD "needs_revision".data).map Char.toLower
  if s == "approved".data then .approved
  else if s == "needs_revision".data then .needsRefinement
  else .failed

/-! ## Executor data model (src/core/models.py)

`ExecutorStepResponse.tool_call` is declared `tool_call: ToolCall =
Field(...)`: a required field whose annotation is not `Optional`, so
Pydantic v2 (which the repository targets, see
src/tests/test_schema_validation.py) raises a `ValidationError` when the
constructor receives `None` for it. `mkStepResponse` is the model of that
constructor: it takes an `Option ToolCall` and fails exactly when given
`none`. -/

/-- `ToolType` (models.py lines 26-32). -/
inductive ToolType where
  | filesystem : ToolType
  | terminal : ToolType
  | git : ToolType
  | web : ToolType
  | memory : ToolType
deriving DecidableEq

/-- `ExecutionStatus` (models.py lines 35-41). -/
inductive ExecutionStatus where
  | pending : ExecutionStatus
  | inProgress : ExecutionStatus
  | success : ExecutionStatus
  | failed : ExecutionStatus
  | skipped : ExecutionStatus
deriving DecidableEq

/-- `PlanStep` (models.py lines 55-66). -/
structure PlanStep where
  step_number : Nat
  description : List Char
  tool : ToolType
  action : List Char
  expected_output : List Char
  dependencies : List Nat
deriving DecidableEq

/-- `ToolCall` (models.py lines 102-110); `arguments` is an association
list over strings. -/
structure ToolCall where
  tool : ToolType
  action : List Char
  arguments : List (List Char × List Char)
deriving DecidableEq

/-- `ExecutorStepResponse` (models.py lines 113-128). -/
structure ExecutorStepResponse where
  step_number : Nat
  status : ExecutionStatus
  tool_call : ToolCall
  result : List Char
  success : Bool
  error_message : Option (List Char)
  output_summary : List Char
deriving DecidableEq

/-- The `ValidationError` message Pydantic v2 raises when
`ExecutorStepResponse` is constructed with `tool_call=None`. -/
def toolCallNoneError : List Char :=
  "ValidationError: tool_call: Input should be a valid ToolCall, got None".data

/-- The Pydantic constructor of `ExecutorStepResponse`: building with
`tool_call=None` raises, because the field is required and not Optional. -/
def mkStepResponse (step_number : Nat) (status : ExecutionStatus)
    (tool_call : Option ToolCall) (result : List Char) (success : Bool)
    (error_message : Option (List Char)) (output_summary : List Char) :
    Except (List Char) ExecutorStepResponse :=
  match tool_call with
  | some tc => .ok ⟨step_number, status, tc, result, success, error_message, output_summary⟩
  | none => .error toolCallNoneError

/-- `ExecutorResponse` (models.py lines 131-147). -/
structure ExecutorResponse where
  steps_completed : List ExecutorStepResponse
  overall_success : Bool
  final_result : List Char
  stopped_at_step : Option Nat
  next_action : Option (List Char)
deriving DecidableEq

/-- The recovery advice dict `{root_cause, fix_strategy, next_step}`
(models.py `ErrorRecoveryResponse`, and the dict `_recover_from_error`
returns). -/
structure RecoveryInfo where
  root_cause : List Char
  fix_strategy : List Char
  next_step : List Char
deriving DecidableEq

/-- `_recover_from_error` (executor.py lines 212-236, executor_v2.py lines
362-387): one recovery-advisor inference call (`call_llm` then
`extract_json`); the advisor oracle returns `none` when that call or the
extraction fails, in which case the fallback dict of the `except` branch
is returned. Either way the function returns normally. -/
def recoverFromError (advisor : Nat → Option RecoveryInfo) (step : PlanStep)
    (error : List Char) : RecoveryInfo :=
  match advisor step.step_number with
  | some r => r
  | none => ⟨error, "Retry".data, step.description⟩

/-! ## `ExecutorAgent` v1 (src/agents/executor.py)

The capability registry behind `_call_tool` is an external collaborator
(spec section 6): the `tool` oracle gives, per step number, the string the
dispatched tool returns or the exception it raises (`ValueError` for an
unknown action included, line 210). -/

/-- The response of v1 `_execute_step` (lines 109-161) together with the
number of `_call_tool` and `_recover_from_error` invocations it made. In
the failure branch (lines 141-161) the recovery advice is computed at line
145 and then never stored: the response is built without it (and
`ExecutorStepResponse` has no field that could hold it). The v1 failure
branch builds a placeholder `ToolCall` (lines 150-154), so construction
always succeeds. -/
structure StepExecV1Out where
  response : ExecutorStepResponse
  toolCalls : Nat
  recoveryCalls : Nat
deriving DecidableEq

/-- v1 `_execute_step`. -/
def executeStepV1 (tool : Nat → Except (List Char) (List Char))
    (advisor : Nat → Option RecoveryInfo) (step : PlanStep) : StepExecV1Out :=
  match tool step.step_number with
  | .ok result =>
      { response :=
          ⟨step.step_number, .success, ⟨step.tool, step.action, []⟩,
            if result == [] then [] else result.take 500,
            true, none,
            (if result == [] then "Step completed".data else result.take 100).take 100⟩,
        toolCalls := 1, recoveryCalls := 0 }
  | .error e =>
      let _recovery := recoverFromError advisor step e
      { response :=
          ⟨step.step_number, .failed,
            ⟨.terminal, "error".data, [("error".data, e)]⟩,
            e, false, some e, "Erro: ".data ++ e.take 80⟩,
        toolCalls := 1, recoveryCalls := 1 }

/-- `"\n".join` over rendered lines. -/
def joinLines : List (List Char) → List Char
  | [] => []
  | [l] => l
  | l :: rest => l ++ '\n' :: joinLines rest

/-- Decimal rendering of a natural number as characters. -/
def natChars (n : Nat) : List Char := (toString n).data

/-- The sequential loop of v1 `execute` (lines 70-79): run steps in order,
stop after the first failure. Returns the accumulated step responses. -/
def executeV1Loop (tool : Nat → Except (List Char) (List Char))
    (advisor : Nat → Option RecoveryInfo) :
    List PlanStep → List ExecutorStepResponse → List ExecutorStepResponse
  | [], acc => acc
  | step :: rest, acc =>
      let out := executeStepV1 tool advisor step
      let acc2 := acc ++ [out.response]
      if out.response.success then executeV1Loop tool advisor rest acc2
      else acc2

/-- v1 `ExecutorAgent.execute` (lines 56-107). -/
def executeV1 (tool : Nat → Except (List Char) (List Char))
    (advisor : Nat → Option RecoveryInfo) (plan : List PlanStep) :
    ExecutorResponse :=
  let steps := executeV1Loop tool advisor plan []
  let overall := steps.all (fun s => s.success)
  { steps_completed := steps,
    overall_success := overall,
    final_result :=
      joinLines (steps.map (fun s =>
        "Step ".data ++ natChars s.step_number ++ ": ".data ++ s.output_summary)),
    stopped_at_step :=
      if overall then none else (steps.getLast?).map (fun s => s.step_number),
    next_action :=
      if overall then none else some "Retry with error recovery".data }

/-! ## `ExecutorAgentV2` (src/agents/executor_v2.py)

The v2 failure branch of `_execute_step` (lines 289-305) computes recovery
advice (line 293, discarded) and then constructs an `ExecutorStepResponse`
with `tool_call=None` (line 298). Because `tool_call` is a required
non-Optional Pydantic field, that construction raises `ValidationError`,
so `_execute_step` itself raises on every failing step. The memory write
of the success branch (lines 265-274) is an external side effect with no
influence on the returned value and is not modeled. -/

/-- v2 `_execute_step` (lines 236-305). -/
def executeStepV2 (tool : Nat → Except (List Char) (List Char))
    (advisor : Nat → Option RecoveryInfo) (step : PlanStep) :
    Except (List Char) ExecutorStepResponse :=
  match tool step.step_number with
  | .ok result =>
      mkStepResponse step.step_number .success
        (some ⟨step.tool, step.action, []⟩)
        (if result == [] then [] else result.take 500)
        true none
        ((if result == [] then "Step completed".data else result.take 100).take 100)
  | .error e =>
      let _recovery := recoverFromError advisor step e
      mkStepResponse step.step_number .failed none e false (some e)
        ("Error: ".data ++ e.take 80)

/-- The shared execution state `_execute_with_dependencies` threads through
`_execute_parallel`: the `steps_executed` dict (insertion-ordered) and the
`completed` and `failed` sets (as lists without duplicates). -/
structure ExecState where
  steps_executed : List (Nat × ExecutorStepResponse)
  completed : List Nat
  failed : List Nat
deriving DecidableEq

/-- Insertion into the `steps_executed` dict. -/
def dictInsert (d : List (Nat × ExecutorStepResponse)) (k : Nat)
    (v : ExecutorStepResponse) : List (Nat × ExecutorStepResponse) :=
  if d.any (fun p => p.1 == k) then
    d.map (fun p => if p.1 == k then (k, v) else p)
  else d ++ [(k, v)]

/-- v2 `_execute_parallel` (lines 186-234). The thread pool resolves the
wave's futures in completion order; the per-step updates commute except
for `steps_executed` insertion order, and the model fixes the wave list's
order. The wave-level `as_completed` timeout of line 209 is a wall-clock
event outside the embedding; the model corresponds to runs where it does
not fire. When a step's execution raised, the `except` branch (lines
222-234) itself constructs a response with `tool_call=None`, which raises
`ValidationError` out of the wave (its `failed.add` of line 225 precedes
the raise but the exception escapes `execute`, so no response reports it). -/
def executeParallelV2 (tool : Nat → Except (List Char) (List Char))
    (advisor : Nat → Option RecoveryInfo) :
    List PlanStep → ExecState → Except (List Char) ExecState
  | [], st => .ok st
  | step :: rest, st =>
      match executeStepV2 tool advisor step with
      | .ok resp =>
          executeParallelV2 tool advisor rest
            { steps_executed := dictInsert st.steps_executed step.step_number resp,
              completed :=
                if resp.success then st.completed ++ [step.step_number]
                else st.completed,
              failed :=
                if resp.success then st.failed
                else st.failed ++ [step.step_number] }
      | .error _ => .error toolCallNoneError

/-- The last plan step carrying a given number: Python dict comprehension
semantics for `step_map` (line 141), where a duplicate number keeps the
last entry. -/
def stepByNumber (plan : List PlanStep) (n : Nat) : Option PlanStep :=
  (plan.filter (fun s => s.step_number == n)).getLast?

/-- `_build_dag` (lines 107-127): the dependency list per step number. The
warning for a dependency on a nonexistent step (line 123) is only a log;
the step is kept. -/
def buildDag (plan : List PlanStep) : Nat → List Nat :=
  fun n =>
    match stepByNumber plan n with
    | some s => s.dependencies
    | none => []

/-- Insert into a sorted list of naturals. -/
def insertSorted (n : Nat) : List Nat → List Nat
  | [] => [n]
  | m :: rest => if n ≤ m then n :: m :: rest else m :: insertSorted n rest

/-- Sort a list of naturals ascending. CPython iterates a `set` of small
ints in ascending slot order (hash(i) = i), so ascending order is the
faithful snapshot order for `list(remaining)` and `set(step_map.keys())`
over step numbers. -/
def sortNats (l : List Nat) : List Nat := l.foldr insertSorted []

/-- One pass of the failed-dependency cascade (lines 156-165): iterate
over a snapshot of `remaining`; a step one of whose dependencies is in
`failed` is appended to `failed` and dropped from `remaining`. `failed`
grows while the pass runs, so a chain of dependents cascades within one
pass exactly when each dependent comes after its failed dependency in the
snapshot order. Returns (new failed, new remaining). -/
def cascadePass (dag : Nat → List Nat) : List Nat → List Nat → List Nat × List Nat
  | [], failed => (failed, [])
  | n :: rest, failed =>
      if (dag n).any (fun d => failed.contains d) then
        cascadePass dag rest (failed ++ [n])
      else
        let r := cascadePass dag rest failed
        (r.1, n :: r.2)

/-- The scheduler loop state: execution state, the `remaining` set (kept in
ascending order), and the deadlock diagnostic, `some unresolved` once the
`logger.error` of lines 169-172 fires. -/
structure SchedState where
  execState : ExecState
  remaining : List Nat
  deadlock : Option (List Nat)
deriving DecidableEq

/-- How `_execute_with_dependencies` (lines 129-184) ends: `done` when the
`while` loop exits (normally or via `break`), `raised` when an exception
(the wave's `ValidationError`) propagates, `outOfFuel` an artifact of the
fuel embedding, proven unreachable at the fuel `runSchedulerV2` supplies
(`schedLoop_no_fuel`). -/
inductive SchedOutcome where
  | done (st : SchedState) : SchedOutcome
  | raised (msg : List Char) : SchedOutcome
  | outOfFuel (st : SchedState) : SchedOutcome
deriving DecidableEq

/-- The `ready` set of one scheduler iteration (lines 150-154): the
not-yet-run steps all of whose dependencies are completed and that are not
themselves failed, computed from the pre-cascade state. -/
def readyOf (dag : Nat → List Nat) (st : SchedState) : List Nat :=
  st.remaining.filter (fun n =>
    (dag n).all (fun d => st.execState.completed.contains d)
      && !(st.execState.failed.contains n))

/-- The `while remaining:` loop of `_execute_with_dependencies` (lines
148-183), one iteration per unit of fuel: compute `ready` from the current
`remaining` and pre-cascade `failed` (lines 150-154); run the cascade pass
(lines 156-165); when `ready` is empty, log the deadlock diagnostic if
`remaining` is nonempty and break (lines 167-173); otherwise run the wave
(lines 176-180, possibly raising) and remove `ready` from `remaining`
(line 182). -/
def schedLoop (tool : Nat → Except (List Char) (List Char))
    (advisor : Nat → Option RecoveryInfo) (dag : Nat → List Nat)
    (stepOf : Nat → Option PlanStep) : Nat → SchedState → SchedOutcome
  | 0, st => .outOfFuel st
  | fuel + 1, st =>
      if st.remaining.isEmpty then .done st
      else if (readyOf dag st).isEmpty then
        .done { execState := { st.execState with
                  failed := (cascadePass dag st.remaining st.execState.failed).1 },
                remaining := (cascadePass dag st.remaining st.execState.failed).2,
                deadlock :=
                  if (cascadePass dag st.remaining st.execState.failed).2.isEmpty
                  then none
                  else some (cascadePass dag st.remaining st.execState.failed).2 }
      else
        match executeParallelV2 tool advisor ((readyOf dag st).filterMap stepOf)
            { st.execState with
              failed := (cascadePass dag st.remaining st.execState.failed).1 } with
        | .error msg => .raised msg
        | .ok es =>
            schedLoop tool advisor dag stepOf fuel
              { execState := es,
                remaining := (cascadePass dag st.remaining st.execState.failed).2.filter
                  (fun n => !((readyOf dag st).contains n)),
                deadlock := st.deadlock }

/-- Remove duplicates from a list of naturals (Python `set(...)`
construction; which occurrence survives is irrelevant once sorted). -/
def dedupNats : List Nat → List Nat
  | [] => []
  | n :: rest =>
      if (dedupNats rest).contains n then dedupNats rest
      else n :: dedupNats rest

/-- `_execute_with_dependencies` as `execute` (lines 75-84) invokes it: the
dag from `_build_dag`, `remaining` initialised to the step-number set, and
fuel one more than the number of distinct steps (each continuing iteration
removes at least one element of `remaining`, see `schedLoop_no_fuel`). -/
def runSchedulerV2 (tool : Nat → Except (List Char) (List Char))
    (advisor : Nat → Option RecoveryInfo) (plan : List PlanStep) :
    SchedOutcome :=
  let nums := sortNats (dedupNats (plan.map (fun s => s.step_number)))
  schedLoop tool advisor (buildDag plan) (stepByNumber plan)
    (nums.length + 1) ⟨⟨[], [], []⟩, nums, none⟩

/-! ## `AgentRunner.run` (src/core/agent_runner.py lines 64-226)

The runner composes the planner, the v1 executor and the reviewer across a
bounded retry loop (`for attempt in range(MAX_RETRIES)`). The planner and
reviewer are inference-backed collaborators modeled as per-attempt
oracles returning their validated responses; the executor is the embedded
`executeV1`, with per-attempt tool and advisor oracles. The memory
retrieval of phase 1 is feature-gated (`ENABLE_MEMORY_RETRIEVAL`, true in
config) and modeled through the `memoryCtx`/`recall` oracles; the memory
save and auto-commit of the approved branch are external side effects that
do not change the returned dict and are not modeled. The `except` at lines
209-220 catches exceptions of a failing collaborator; the oracles model
collaborators that return normally. `confidence` is only logged and is not
modeled. -/

/-- `PlanResponse` (models.py lines 77-95), the fields the runner reads. -/
structure PlanResponse where
  goal : List Char
  feasible : Bool
  overall_strategy : List Char
  steps : List PlanStep
  estimated_duration_minutes : Nat
deriving DecidableEq

/-- `ReviewIssue` (models.py lines 154-159). -/
structure ReviewIssue where
  issue : List Char
  severity : List Char
  suggestion : List Char
deriving DecidableEq

/-- `ReviewResponse` (models.py lines 162-181), minus the logged-only
`confidence`. -/
structure ReviewResponse where
  goal_achieved : Bool
  status : ReviewStatus
  summary : List Char
  issues : List ReviewIssue
  recommendation : List Char
deriving DecidableEq

/-- `ExecutionContext` (models.py lines 227-247). -/
structure ExecutionContext where
  goal : List Char
  plan : Option PlanResponse
  execution_history : List ExecutorStepResponse
  retrieved_memories : List (List Char)
  iteration_count : Nat
  errors_recovered : Nat
deriving DecidableEq

/-- The dict `run` returns. Each return site of the source populates a
different key set; a key absent from that site's dict is `none`. -/
structure RunOutcome where
  success : Bool
  goal : Option (List Char)
  result : Option (List Char)
  error : Option (List Char)
  review : Option ReviewResponse
  issues : Option (List ReviewIssue)
  context : ExecutionContext
deriving DecidableEq

/-- The collaborators of one `run` invocation, per attempt index. -/
structure RunnerOracles where
  planner : Nat → PlanResponse
  tool : Nat → Nat → Except (List Char) (List Char)
  advisor : Nat → Nat → Option RecoveryInfo
  reviewer : Nat → ReviewResponse
  memoryCtx : Nat → List Char
  memRecall : Nat → List (List Char)

/-- The `{success: False, error, context}` dict returned at lines 108-112
when the plan is not feasible. -/
def infeasibleOutcome (plan : PlanResponse) (ctx : ExecutionContext) :
    RunOutcome :=
  ⟨false, none, none,
    some ("Objetivo nao viavel: ".data ++ plan.overall_strategy),
    none, none, ctx⟩

/-- The retry loop of `run` (lines 82-226). The first `Nat` is the number
of loop iterations left (`maxRetries - attempt`); the `0` case is the
fall-through return of lines 222-226. Alongside the outcome it returns
the list of attempt indices at which `self.executor.execute` was invoked. -/
def runLoop (o : RunnerOracles) (enableRefinement : Bool) (maxRetries : Nat) :
    Nat → Nat → ExecutionContext → RunOutcome × List Nat
  | 0, _, ctx =>
      (⟨false, none, none,
          some ("Limite de tentativas (".data ++ natChars maxRetries
            ++ ") excedido".data),
          none, none, ctx⟩, [])
  | remaining + 1, attempt, ctx =>
      let ctx1 :=
        if (o.memoryCtx attempt).isEmpty then ctx
        else { ctx with retrieved_memories := o.memRecall attempt }
      let plan := o.planner attempt
      let ctx2 := { ctx1 with plan := some plan }
      if !plan.feasible then (infeasibleOutcome plan ctx2, [])
      else
        let execResult := executeV1 (o.tool attempt) (o.advisor attempt) plan.steps
        let ctx3 := { ctx2 with execution_history := execResult.steps_completed }
        let review := o.reviewer attempt
        match review.status with
        | .approved =>
            (⟨true, some ctx3.goal, some execResult.final_result, none,
                some review, none, ctx3⟩, [attempt])
        | .needsRefinement =>
            if enableRefinement && attempt + 1 < maxRetries then
              let r := runLoop o enableRefinement maxRetries remaining (attempt + 1)
                { ctx3 with iteration_count := ctx3.iteration_count + 1 }
              (r.1, attempt :: r.2)
            else
              (⟨false, none, none,
                  some ("Refinamento nao resolveu: ".data ++ review.recommendation),
                  some review, none, ctx3⟩, [attempt])
        | .failed =>
            if attempt + 1 < maxRetries then
              let r := runLoop o enableRefinement maxRetries remaining (attempt + 1)
                { ctx3 with iteration_count := ctx3.iteration_count + 1,
                            errors_recovered := ctx3.errors_recovered + 1 }
              (r.1, attempt :: r.2)
            else
              (⟨false, none, none,
                  some ("Falha nao recuperavel: ".data ++ review.recommendation),
                  none, some review.issues, ctx3⟩, [attempt])

/-- `AgentRunner.run(goal)`: context initialised at line 80, loop entered
with the configured iteration bound. -/
def runAgent (o : RunnerOracles) (enableRefinement : Bool) (maxRetries : Nat)
    (goal : List Char) : RunOutcome × List Nat :=
  runLoop o enableRefinement maxRetries maxRetries 0 ⟨goal, none, [], [], 1, 0⟩

/-! ## Concrete fixtures

Concrete plans and oracles used by the witnesses and counterexamples. -/

/-- Step 1, no dependencies. -/
def exStep1 : PlanStep :=
  ⟨1, "create the file".data, .filesystem, "write_file".data,
    "file exists".data, []⟩

/-- Step 2, depending on step 1 (the spec's fail-fast example). -/
def exStep2dep1 : PlanStep :=
  ⟨2, "commit the file".data, .git, "commit".data, "committed".data, [1]⟩

/-- Step 2, independent of step 1 (same wave). -/
def exStep2indep : PlanStep :=
  ⟨2, "fetch docs".data, .web, "fetch_url".data, "page text".data, []⟩

/-- Step 2, depending on the nonexistent step 99. -/
def exStep2dangling : PlanStep :=
  ⟨2, "blocked step".data, .terminal, "run_command".data, "output".data, [99]⟩

/-- A capability registry whose every call returns normally. -/
def toolOkAll : Nat → Except (List Char) (List Char) := fun _ => .ok "done".data

/-- A capability registry raising on step 1 and succeeding elsewhere. -/
def toolFailStep1 : Nat → Except (List Char) (List Char) :=
  fun n => if n == 1 then .error "boom".data else .ok "done".data

/-- A recovery advisor whose inference call always fails (fallback dict). -/
def advisorNone : Nat → Option RecoveryInfo := fun _ => none

/-- A recovery advisor giving one concrete advice. -/
def advisorA : Nat → Option RecoveryInfo :=
  fun _ => some ⟨"missing directory".data, "create it first".data,
    "mkdir then retry".data⟩

/-- A recovery advisor giving different advice than `advisorA`. -/
def advisorB : Nat → Option RecoveryInfo :=
  fun _ => some ⟨"permission denied".data, "relax permissions".data,
    "chmod then retry".data⟩

/-- A backend that fails transiently on attempts 0, 1 and 2 and answers on
attempt 3. -/
def backendFlaky3 : Nat → BackendReply :=
  fun n => if n < 3 then .transient "connection refused".data
           else .reply "pong".data

/-- A backend that always answers with text carrying no JSON payload. -/
def backendNoJson : Nat → BackendReply :=
  fun _ => .reply "no payload here".data

/-- An infeasible plan response. -/
def infeasiblePlanResp : PlanResponse :=
  ⟨"build a perpetuum mobile".data, false, "cannot be done".data, [], 5⟩

/-- An approving review. -/
def reviewApproved : ReviewResponse :=
  ⟨true, .approved, "goal met".data, [], "finish".data⟩

/-- Runner collaborators whose planner always returns the infeasible plan. -/
def oraclesInfeasible : RunnerOracles :=
  ⟨fun _ => infeasiblePlanResp, fun _ => toolOkAll, fun _ => advisorNone,
    fun _ => reviewApproved, fun _ => [], fun _ => []⟩

/-- The initial execution context of `run` (line 80) for a goal. -/
def initCtx (goal : List Char) : ExecutionContext := ⟨goal, none, [], [], 1, 0⟩

/-! ## Theorems -/

/-- C1. The spec's fail-fast propagation: with steps `1:[]` and `2:[1]`
and step 1's tool raising, the claimed behavior is that step 2 is marked
failed without being dispatched. The code instead raises: the failure
branch of v2 `_execute_step` builds its response with `tool_call=None`
(executor_v2.py line 298), a required non-Optional Pydantic field, so a
`ValidationError` propagates out of the wave and out of the scheduler
before any propagation can happen — the cascade of lines 156-165 is
unreachable for tool failures. This theorem evaluates the embedded
scheduler at that failing input: the run raises instead of marking
step 2 failed. -/
theorem C1_fail_fast_raises_validation_error :
    runSchedulerV2 toolFailStep1 advisorNone [exStep1, exStep2dep1]
      = .raised toolCallNoneError := rfl

/-- C3. The claimed wave error isolation: a step whose execution raises
becomes a failed StepResult and never aborts the wave. In the code the
conversion itself raises (`tool_call=None` against a required Pydantic
field), at every level: `_execute_step` raises, `_execute_parallel`'s
except branch raises again while handling it, and the whole scheduler run
aborts, so the other step of the wave never resolves into the result
either. (The per-step timeout of the claim is in the code a wave-level
`as_completed` timeout, line 209, whose `TimeoutError` is likewise not
caught; as a wall-clock event it is outside this embedding.) -/
theorem C3_step_exception_aborts_wave :
    executeStepV2 toolFailStep1 advisorNone exStep1 = .error toolCallNoneError ∧
    executeParallelV2 toolFailStep1 advisorNone [exStep1, exStep2indep]
        ⟨[], [], []⟩ = .error toolCallNoneError ∧
    runSchedulerV2 toolFailStep1 advisorNone [exStep1, exStep2indep]
      = .raised toolCallNoneError :=
  ⟨rfl, rfl, rfl⟩

/-- C4. The backoff contract of `call_llm`: against a backend failing
transiently on attempts 0, 1 and 2 and answering on attempt 3, a budget of
4 attempts returns the success result after exactly 3 retries (4 backend
calls) with backoff sleeps 1s, 2s, 4s — each `min(10, 2 ** attempt)`,
exponentially increasing and capped at 10s — while a budget of 2 attempts
raises the transient `ConnectionError` after its 2 calls. Only
classified-transient errors are retried (a malformed-output error is
raised at once, see the C5 theorems). -/
theorem C4_backoff_contract (backend : Nat → BackendReply)
    (m0 m1 m2 s : List Char)
    (h0 : backend 0 = .transient m0) (h1 : backend 1 = .transient m1)
    (h2 : backend 2 = .transient m2) (h3 : backend 3 = .reply s) :
    callLLM backend false 4 = ⟨.ok (.text s), 4, [1, 2, 4]⟩ ∧
    callLLM backend false 2 = ⟨.error (.connection (exhaustedMsg 2)), 2, [1]⟩ ∧
    [1, 2, 4] = [min 10 (2 ^ 0), min 10 (2 ^ 1), min 10 (2 ^ 2)] := by
  refine ⟨?_, ?_, rfl⟩ <;> simp [callLLM, callLLMLoop, llmAttempt, h0, h1, h2, h3]

/-- Witness for `C4_backoff_contract` at the concrete flaky backend. -/
theorem C4_backoff_contract_witness :
    callLLM backendFlaky3 false 4 = ⟨.ok (.text "pong".data), 4, [1, 2, 4]⟩ ∧
    callLLM backendFlaky3 false 2
      = ⟨.error (.connection (exhaustedMsg 2)), 2, [1]⟩ ∧
    [1, 2, 4] = [min 10 (2 ^ 0), min 10 (2 ^ 1), min 10 (2 ^ 2)] :=
  C4_backoff_contract backendFlaky3 "connection refused".data
    "connection refused".data "connection refused".data "pong".data
    rfl rfl rfl rfl

/-- C5, counterexample. The claim says a malformed-structured-output error
is re-issued up to `maxAttempts` and never raised on the first failure
while attempts remain. Against a backend whose first response carries no
parseable payload and a budget of 3 attempts, `call_llm` raises the
`json.JSONDecodeError` after exactly one backend call: `JSONDecodeError`
is not among the retried exception classes (llm.py line 116 retries only
`(ConnectionError, TimeoutError, OSError)`; lines 131-133 re-raise). -/
theorem C5_malformed_counterexample :
    callLLM backendNoJson true 3
      = ⟨.error (.jsonDecode (.noJsonFound "no payload here".data)), 1, []⟩ :=
  rfl

/-- C5, amended: for every attempt budget, a first response whose text
yields no parseable structured payload makes `call_llm` raise the
malformed-output error immediately — one backend call, no retry, no
backoff sleep. -/
theorem C5_malformed_raised_immediately (backend : Nat → BackendReply)
    (maxRetries : Nat) (s : List Char) (e : JsonError)
    (h0 : backend 0 = .reply s) (he : extractJson s = .error e) :
    callLLM backend true maxRetries = ⟨.error (.jsonDecode e), 1, []⟩ := by
  cases maxRetries with
  | zero => simp [callLLM, callLLMLoop, llmAttempt, h0, he]
  | succ n => simp [callLLM, callLLMLoop, llmAttempt, h0, he]

/-- Witness for `C5_malformed_raised_immediately` at the concrete backend. -/
theorem C5_malformed_witness :
    callLLM backendNoJson true 5
      = ⟨.error (.jsonDecode (.noJsonFound "no payload here".data)), 1, []⟩ :=
  C5_malformed_raised_immediately backendNoJson 5 "no payload here".data
    (.noJsonFound "no payload here".data) rfl rfl

/-- C6. The structured-payload extraction grammar: a fenced ` ```json `
block's interior is parsed; otherwise the first balanced-brace span from
the first opening brace is parsed; text containing neither a fence tag nor
an opening brace raises a parse error and never yields partial or default
data. The two concrete inputs of the spec extract exactly the claimed
objects. -/
theorem C6_extraction_grammar :
    extractJson "prefix ```json \x7b\"a\":1\x7d ``` suffix".data
        = .ok (.obj [("a".data, .num 1)]) ∧
    extractJson "noise \x7b\"a\":\x7b\"b\":2\x7d\x7d trailing".data
        = .ok (.obj [("a".data, .obj [("b".data, .num 2)])]) ∧
    ∀ t : List Char, hasSub fenceTag t = false → hasSub [lbrace] t = false →
      extractJson t = .error (.noJsonFound t) := by
  refine ⟨rfl, rfl, fun t h1 h2 => ?_⟩
  simp [extractJson, h1, h2]

/-- Witness for `C6_extraction_grammar`: the no-braces case at a concrete
input. -/
theorem C6_extraction_witness :
    extractJson "it could not be done".data
      = .error (.noJsonFound "it could not be done".data) :=
  C6_extraction_grammar.2.2 "it could not be done".data rfl rfl

/-- C7. Whenever the generated plan of the current iteration has
`feasible=false`, `run` returns the `{success: False, error, context}`
dict immediately: the executor is never invoked for that plan (the
returned trace of executor calls is empty) and the remaining retry budget
is not consumed — the result is the same for every remaining iteration
count, and it does not depend on the executor, reviewer or later planner
oracles, none of which occur in the right-hand side. -/
theorem C7_infeasible_returns_immediately (o : RunnerOracles)
    (enableRefinement : Bool) (maxRetries remaining attempt : Nat)
    (ctx : ExecutionContext)
    (h : (o.planner attempt).feasible = false) :
    runLoop o enableRefinement maxRetries (remaining + 1) attempt ctx
      = (infeasibleOutcome (o.planner attempt)
          { (if (o.memoryCtx attempt).isEmpty then ctx
             else { ctx with retrieved_memories := o.memRecall attempt }) with
            plan := some (o.planner attempt) }, []) := by
  simp [runLoop, h]

/-- Witness for `C7_infeasible_returns_immediately`: the entry
configuration (`MAX_RETRIES = 2`, refinement enabled) with an infeasible
planner. -/
theorem C7_infeasible_witness :
    runLoop oraclesInfeasible true 2 2 0 (initCtx "impossible".data)
      = (infeasibleOutcome infeasiblePlanResp
          { initCtx "impossible".data with plan := some infeasiblePlanResp },
         []) :=
  C7_infeasible_returns_immediately oraclesInfeasible true 2 1 0
    (initCtx "impossible".data) rfl

/-- C8, counterexample. The claim says the recovery-advisor result is
attached to the failed step's StepResult. `ExecutorStepResponse` has no
field for it, and v1 `_execute_step` discards the advice it computed at
executor.py line 145: two advisors giving different advice produce
identical outputs (responses and call counts alike), so the advice cannot
be attached to — nor recovered from — the returned StepResult. -/
theorem C8_recovery_not_attached_counterexample :
    advisorA 1 ≠ advisorB 1 ∧
    executeStepV1 toolFailStep1 advisorA exStep1
      = executeStepV1 toolFailStep1 advisorB exStep1 := by
  exact ⟨by decide, rfl⟩

/-- C8, amended: on a step whose tool call raises, the v1 executor makes
exactly one recovery-advisor call and exactly one tool call (it never
re-executes the failed step), returns a failed StepResult, and that
StepResult is independent of the recovery advice — the advice is computed
and discarded, not attached. (In v2 the failure branch raises a
`ValidationError` before any StepResult is returned at all, see the C1 and
C3 theorems.) -/
theorem C8_recovery_called_once_discarded
    (tool : Nat → Except (List Char) (List Char))
    (advA advB : Nat → Option RecoveryInfo) (step : PlanStep) (e : List Char)
    (hfail : tool step.step_number = .error e) :
    (executeStepV1 tool advA step).recoveryCalls = 1 ∧
    (executeStepV1 tool advA step).toolCalls = 1 ∧
    (executeStepV1 tool advA step).response.success = false ∧
    (executeStepV1 tool advA step).response
      = (executeStepV1 tool advB step).response := by
  simp [executeStepV1, hfail]

/-- Witness for `C8_recovery_called_once_discarded` at the concrete
failing step. -/
theorem C8_recovery_witness :
    (executeStepV1 toolFailStep1 advisorA exStep1).recoveryCalls = 1 ∧
    (executeStepV1 toolFailStep1 advisorA exStep1).toolCalls = 1 ∧
    (executeStepV1 toolFailStep1 advisorA exStep1).response.success = false ∧
    (executeStepV1 toolFailStep1 advisorA exStep1).response
      = (executeStepV1 toolFailStep1 advisorB exStep1).response :=
  C8_recovery_called_once_discarded toolFailStep1 advisorA advisorB exStep1
    "boom".data rfl

/-- C9. The reviewer's status mapping: the status string is lower-cased;
exactly `"approved"` maps to APPROVED and exactly `"needs_revision"` to
NEEDS_REFINEMENT; a missing status key defaults to `"needs_revision"` and
hence NEEDS_REFINEMENT; every other string — the enum's own literal
`"needs_refinement"` included — maps to FAILED. -/
theorem C9_review_status_mapping :
    mapReviewStatus (some "approved".data) = .approved ∧
    mapReviewStatus (some "APProved".data) = .approved ∧
    mapReviewStatus (some "needs_revision".data) = .needsRefinement ∧
    mapReviewStatus none = .needsRefinement ∧
    mapReviewStatus (some "needs_refinement".data) = .failed ∧
    ∀ s : List Char,
      (s.map Char.toLower == "approved".data) = false →
      (s.map Char.toLower == "needs_revision".data) = false →
      mapReviewStatus (some s) = .failed := by
  refine ⟨rfl, rfl, rfl, rfl, rfl, fun s h1 h2 => ?_⟩
  simp [mapReviewStatus, h1, h2]

/-- Witness for `C9_review_status_mapping`: the catch-all branch at a
concrete unknown status string. -/
theorem C9_review_status_witness :
    mapReviewStatus (some "rejected".data) = .failed :=
  C9_review_status_mapping.2.2.2.2.2 "rejected".data rfl rfl

/-- C10. v1 `ExecutorAgent.execute` on the empty step list: no step runs,
`overall_success` is `all([]) = True`, `final_result` is the empty join,
`stopped_at_step` and `next_action` are None — an empty plan is a fully
successful execution. -/
theorem C10_empty_plan_fully_successful
    (tool : Nat → Except (List Char) (List Char))
    (advisor : Nat → Option RecoveryInfo) :
    executeV1 tool advisor [] = ⟨[], true, [], none, none⟩ := rfl

/-- Witness for `C10_empty_plan_fully_successful` at concrete oracles. -/
theorem C10_empty_plan_witness :
    executeV1 toolOkAll advisorNone [] = ⟨[], true, [], none, none⟩ :=
  C10_empty_plan_fully_successful toolOkAll advisorNone

/-! ### Helper lemmas for the scheduler theorems -/

/-- `getLast?` yields a member of the list. -/
theorem getLast?_mem_self : ∀ (l : List PlanStep) (x : PlanStep),
    l.getLast? = some x → x ∈ l
  | [], _, h => by simp at h
  | [a], x, h => by simp_all
  | a :: b :: l, x, h => by
      rw [List.getLast?_cons_cons] at h
      exact List.mem_cons_of_mem a (getLast?_mem_self (b :: l) x h)

/-- A step resolved by number belongs to the plan. -/
theorem stepByNumber_mem {plan : List PlanStep} {n : Nat} {t : PlanStep}
    (h : stepByNumber plan n = some t) : t ∈ plan :=
  List.mem_of_mem_filter (getLast?_mem_self _ t h)

/-- With pairwise-distinct step numbers, a plan member is resolved by its
own number. -/
theorem stepByNumber_self : ∀ (plan : List PlanStep) (s : PlanStep),
    (plan.map (fun t => t.step_number)).Nodup → s ∈ plan →
    stepByNumber plan s.step_number = some s
  | [], s, _, hs => absurd hs (List.not_mem_nil s)
  | t :: rest, s, hnd, hs => by
      rw [List.map_cons, List.nodup_cons] at hnd
      obtain ⟨hnotin, hndr⟩ := hnd
      rcases List.mem_cons.mp hs with rfl | hsr
      · have hfilter : rest.filter (fun u => u.step_number == s.step_number) = [] := by
          rw [List.filter_eq_nil_iff]
          intro u hu hbeq
          exact hnotin (beq_iff_eq.mp hbeq ▸ List.mem_map_of_mem (fun t => t.step_number) hu)
        unfold stepByNumber
        simp [List.filter_cons, hfilter]
      · have hne : (t.step_number == s.step_number) = false := by
          refine beq_eq_false_iff_ne.mpr fun he => ?_
          exact hnotin (he ▸ List.mem_map_of_mem (fun t => t.step_number) hsr)
        have ih := stepByNumber_self rest s hndr hsr
        unfold stepByNumber at ih ⊢
        simpa [List.filter_cons, hne] using ih

/-- Membership in a sorted insertion. -/
theorem mem_insertSorted {a n : Nat} : ∀ {l : List Nat},
    a ∈ insertSorted n l ↔ a = n ∨ a ∈ l
  | [] => by simp [insertSorted]
  | m :: rest => by
      by_cases h : n ≤ m
      · simp [insertSorted, h]
      · simp only [insertSorted, h, if_false, List.mem_cons,
          mem_insertSorted (l := rest)]
        tauto

/-- Sorting preserves membership. -/
theorem mem_sortNats {a : Nat} : ∀ {l : List Nat}, a ∈ sortNats l ↔ a ∈ l
  | [] => Iff.rfl
  | x :: l => by
      show a ∈ insertSorted x (sortNats l) ↔ _
      rw [mem_insertSorted, mem_sortNats]
      simp

/-- Deduplication preserves membership. -/
theorem mem_dedupNats {a : Nat} : ∀ {l : List Nat}, a ∈ dedupNats l ↔ a ∈ l
  | [] => Iff.rfl
  | n :: rest => by
      by_cases h : (dedupNats rest).contains n
      · have hn : n ∈ rest := (mem_dedupNats (l := rest)).mp (by simpa using h)
        have h' : ((dedupNats rest).contains n) = true := by simpa using h
        simp only [dedupNats, h', if_true, mem_dedupNats (l := rest), List.mem_cons]
        constructor
        · exact Or.inr
        · rintro (rfl | ha)
          · exact hn
          · exact ha
      · have h' : ((dedupNats rest).contains n) = false := by simpa using h
        simp only [dedupNats, h', Bool.false_eq_true, if_false, List.mem_cons,
          mem_dedupNats (l := rest)]

/-- With nothing yet failed, the cascade pass is the identity. -/
theorem cascadePass_nil_failed (dag : Nat → List Nat) :
    ∀ rem, cascadePass dag rem [] = ([], rem)
  | [] => rfl
  | n :: rest => by
      have ih := cascadePass_nil_failed dag rest
      simp [cascadePass, ih, List.contains]

/-- The remaining list kept by the cascade pass is a sublist of the input. -/
theorem cascadePass_keep_sublist (dag : Nat → List Nat) :
    ∀ rem failed, List.Sublist (cascadePass dag rem failed).2 rem
  | [], _ => by simp [cascadePass]
  | n :: rest, failed => by
      by_cases h : ((dag n).any (fun d => failed.contains d)) = true
      · simp only [cascadePass, h, if_true]
        exact (cascadePass_keep_sublist dag rest (failed ++ [n])).cons n
      · simp only [cascadePass, h, if_false]
        exact (cascadePass_keep_sublist dag rest failed).cons₂ n

/-- A nonempty list has a member. -/
theorem exists_mem_of_not_isEmpty {l : List Nat} (h : l.isEmpty = false) :
    ∃ a, a ∈ l := by
  cases l with
  | nil => simp at h
  | cons x xs => exact ⟨x, List.mem_cons_self x xs⟩

/-- A successful tool call makes v2 `_execute_step` return a successful
response. -/
theorem executeStepV2_ok (tool : Nat → Except (List Char) (List Char))
    (advisor : Nat → Option RecoveryInfo) (step : PlanStep) (r : List Char)
    (hr : tool step.step_number = .ok r) :
    ∃ resp, executeStepV2 tool advisor step = .ok resp ∧ resp.success = true :=
  ⟨⟨step.step_number, .success, ⟨step.tool, step.action, []⟩,
      if r == [] then [] else r.take 500, true, none,
      (if r == [] then "Step completed".data else r.take 100).take 100⟩,
    by simp [executeStepV2, hr, mkStepResponse], rfl⟩

/-- When every tool call succeeds, a wave returns normally, fails nothing,
and completes exactly its steps. -/
theorem executeParallelV2_allOk (tool : Nat → Except (List Char) (List Char))
    (advisor : Nat → Option RecoveryInfo)
    (hok : ∀ n, ∃ r, tool n = .ok r) :
    ∀ (steps : List PlanStep) (st : ExecState),
      ∃ es, executeParallelV2 tool advisor steps st = .ok es ∧
        es.failed = st.failed ∧
        es.completed = st.completed ++ steps.map (fun s => s.step_number)
  | [], st => ⟨st, rfl, rfl, by simp⟩
  | step :: rest, st => by
      obtain ⟨r, hr⟩ := hok step.step_number
      obtain ⟨resp, hresp, hsucc⟩ := executeStepV2_ok tool advisor step r hr
      obtain ⟨es, h1, h2, h3⟩ := executeParallelV2_allOk tool advisor hok rest
        ⟨dictInsert st.steps_executed step.step_number resp,
          st.completed ++ [step.step_number], st.failed⟩
      refine ⟨es, ?_, h2, ?_⟩
      · simpa [executeParallelV2, hresp, hsucc] using h1
      · rw [h3]; simp

/-- Each continuing scheduler iteration strictly shrinks `remaining`. -/
theorem remaining_after_wave_shrinks (dag : Nat → List Nat) (st : SchedState)
    (r : Nat) (hr : r ∈ readyOf dag st) :
    ((cascadePass dag st.remaining st.execState.failed).2.filter
        (fun n => !((readyOf dag st).contains n))).length
      < st.remaining.length := by
  have hmem : r ∈ st.remaining := List.mem_of_mem_filter hr
  have hsub : List.Sublist
      ((cascadePass dag st.remaining st.execState.failed).2.filter
        (fun n => !((readyOf dag st).contains n))) st.remaining :=
    (List.filter_sublist _).trans
      (cascadePass_keep_sublist dag st.remaining st.execState.failed)
  rcases Nat.lt_or_ge ((cascadePass dag st.remaining st.execState.failed).2.filter
      (fun n => !((readyOf dag st).contains n))).length st.remaining.length with h | h
  · exact h
  · exfalso
    have heq := hsub.eq_of_length (Nat.le_antisymm hsub.length_le h)
    have hmem2 : r ∈ (cascadePass dag st.remaining st.execState.failed).2.filter
        (fun n => !((readyOf dag st).contains n)) := by rw [heq]; exact hmem
    have hpred := (List.mem_filter.mp hmem2).2
    simp at hpred
    exact hpred hr

/-- With fuel exceeding the size of `remaining`, the scheduler loop never
runs out of fuel: the `while` loop of `_execute_with_dependencies`
terminates in finitely many passes. -/
theorem schedLoop_no_fuel (tool : Nat → Except (List Char) (List Char))
    (advisor : Nat → Option RecoveryInfo) (dag : Nat → List Nat)
    (stepOf : Nat → Option PlanStep) :
    ∀ (fuel : Nat) (st : SchedState), st.remaining.length < fuel →
      ∀ st2, schedLoop tool advisor dag stepOf fuel st ≠ .outOfFuel st2 := by
  intro fuel
  induction fuel with
  | zero => intro st h; exact absurd h (Nat.not_lt_zero _)
  | succ n ih =>
      intro st h st2
      by_cases he : st.remaining.isEmpty
      · simp [schedLoop, he]
      · by_cases hrd : (readyOf dag st).isEmpty
        · simp [schedLoop, he, hrd]
        · rcases hm : executeParallelV2 tool advisor ((readyOf dag st).filterMap stepOf)
              { st.execState with
                failed := (cascadePass dag st.remaining st.execState.failed).1 }
            with msg | es
          · simp [schedLoop, he, hrd, hm]
          · have hstep : schedLoop tool advisor dag stepOf (n + 1) st
                = schedLoop tool advisor dag stepOf n
                  { execState := es,
                    remaining := (cascadePass dag st.remaining st.execState.failed).2.filter
                      (fun m => !((readyOf dag st).contains m)),
                    deadlock := st.deadlock } := by
              simp [schedLoop, he, hrd, hm]
            rw [hstep]
            apply ih
            have hrd2 : (readyOf dag st).isEmpty = false := by
              simpa using hrd
            obtain ⟨r, hrmem⟩ := exists_mem_of_not_isEmpty hrd2
            have hlt := remaining_after_wave_shrinks dag st r hrmem
            dsimp only
            omega

/-- The dangling-dependency run: when every tool call succeeds and some
step `sn` has a dependency `d` never produced by any schedulable step, the
loop ends via the deadlock break with `sn` among the unresolved steps of
the diagnostic, and `sn` is never dispatched (it is never ready). -/
theorem schedLoop_dangling_aux (tool : Nat → Except (List Char) (List Char))
    (advisor : Nat → Option RecoveryInfo) (dag : Nat → List Nat)
    (stepOf : Nat → Option PlanStep) (sn d : Nat)
    (hok : ∀ n, ∃ r, tool n = .ok r)
    (hdag : d ∈ dag sn)
    (hstepOf : ∀ n t, stepOf n = some t → t.step_number ≠ d) :
    ∀ (fuel : Nat) (st : SchedState), st.remaining.length < fuel →
      st.execState.failed = [] →
      sn ∈ st.remaining →
      (∀ n ∈ st.execState.completed, n ≠ d) →
      ∃ st2 L, schedLoop tool advisor dag stepOf fuel st = .done st2 ∧
        st2.deadlock = some L ∧ sn ∈ L := by
  intro fuel
  induction fuel with
  | zero => intro st h; exact absurd h (Nat.not_lt_zero _)
  | succ n ih =>
      intro st hflen hfail hsn hcomp
      have he : st.remaining.isEmpty = false := by
        cases h' : st.remaining with
        | nil => rw [h'] at hsn; exact absurd hsn (List.not_mem_nil sn)
        | cons a l => simp
      have hcasc : cascadePass dag st.remaining st.execState.failed
          = ([], st.remaining) := by
        rw [hfail]; exact cascadePass_nil_failed dag st.remaining
      have hdnc : st.execState.completed.contains d = false := by
        have hd' : d ∉ st.execState.completed := fun hmem => hcomp d hmem rfl
        simpa using hd'
      have hsnr : sn ∉ readyOf dag st := by
        intro hmem
        have hp := (List.mem_filter.mp hmem).2
        rw [Bool.and_eq_true] at hp
        have hall := hp.1
        rw [List.all_eq_true] at hall
        have hcontra := hall d hdag
        rw [hdnc] at hcontra
        exact Bool.noConfusion hcontra
      by_cases hrd : (readyOf dag st).isEmpty
      · refine ⟨{ execState := { st.execState with failed := ([] : List Nat) },
                  remaining := st.remaining,
                  deadlock := some st.remaining }, st.remaining, ?_, rfl, hsn⟩
        simp [schedLoop, he, hrd, hcasc]
      · obtain ⟨es, hpar, hesf, hesc⟩ := executeParallelV2_allOk tool advisor hok
          ((readyOf dag st).filterMap stepOf)
          { st.execState with
            failed := (cascadePass dag st.remaining st.execState.failed).1 }
        have hfail2 : es.failed = [] := by
          rw [hesf]; simp [hcasc]
        have hcomp2 : ∀ m ∈ es.completed, m ≠ d := by
          intro m hm
          rw [hesc] at hm
          rcases List.mem_append.mp hm with hm1 | hm2
          · exact hcomp m hm1
          · rw [List.mem_map] at hm2
            obtain ⟨t, ht, hteq⟩ := hm2
            rw [List.mem_filterMap] at ht
            obtain ⟨nn, _, hsome⟩ := ht
            exact hteq ▸ hstepOf nn t hsome
        have hsn2 : sn ∈ (cascadePass dag st.remaining st.execState.failed).2.filter
            (fun m => !((readyOf dag st).contains m)) := by
          rw [hcasc]
          refine List.mem_filter.mpr ⟨hsn, ?_⟩
          simpa using hsnr
        have hrd2 : (readyOf dag st).isEmpty = false := by simpa using hrd
        obtain ⟨r, hrmem⟩ := exists_mem_of_not_isEmpty hrd2
        have hlt := remaining_after_wave_shrinks dag st r hrmem
        obtain ⟨st2, L, hrun, hdl, hL⟩ := ih
          { execState := es,
            remaining := (cascadePass dag st.remaining st.execState.failed).2.filter
              (fun m => !((readyOf dag st).contains m)),
            deadlock := st.deadlock }
          (by dsimp only; omega) hfail2 hsn2 hcomp2
        have hstep : schedLoop tool advisor dag stepOf (n + 1) st
            = schedLoop tool advisor dag stepOf n
              { execState := es,
                remaining := (cascadePass dag st.remaining st.execState.failed).2.filter
                  (fun m => !((readyOf dag st).contains m)),
                deadlock := st.deadlock } := by
          simp [schedLoop, he, hrd, hpar]
        exact ⟨st2, L, hstep ▸ hrun, hdl, hL⟩

/-- C2. Twofold. Termination: for every plan and oracles, the embedded
scheduler loop ends within its fuel — the `while` loop cannot hang.
Deadlock diagnostic: the claim as stated fails when a dispatched step's
tool raises (see the C2 counterexample theorem: the run aborts with the
`ValidationError` of the broken failure path instead of a deadlock
diagnostic); amended with the proviso that every dispatched tool call
returns normally, a plan in which step `s` declares a dependency `d`
carried by no step of the plan ends the execution phase via the deadlock
break, with a diagnostic listing the unresolved step ids, `s` among them —
and `s` is never dispatched, since it can never become ready. -/
theorem C2_scheduler_terminates_and_deadlock
    (tool : Nat → Except (List Char) (List Char))
    (advisor : Nat → Option RecoveryInfo) (plan : List PlanStep) :
    (∀ st2, runSchedulerV2 tool advisor plan ≠ .outOfFuel st2) ∧
    (∀ s d, (∀ n, ∃ r, tool n = .ok r) →
      (plan.map (fun t => t.step_number)).Nodup →
      s ∈ plan → d ∈ s.dependencies →
      (∀ t ∈ plan, t.step_number ≠ d) →
      ∃ st2 L, runSchedulerV2 tool advisor plan = .done st2 ∧
        st2.deadlock = some L ∧ s.step_number ∈ L) := by
  constructor
  · intro st2
    apply schedLoop_no_fuel
    exact Nat.lt_succ_self _
  · intro s d hok hnd hs hdep hnot
    have hdag : d ∈ buildDag plan s.step_number := by
      unfold buildDag
      rw [stepByNumber_self plan s hnd hs]
      exact hdep
    have hstepOf : ∀ n t, stepByNumber plan n = some t → t.step_number ≠ d :=
      fun n t ht => hnot t (stepByNumber_mem ht)
    apply schedLoop_dangling_aux tool advisor (buildDag plan) (stepByNumber plan)
      s.step_number d hok hdag hstepOf
    · exact Nat.lt_succ_self _
    · rfl
    · show s.step_number ∈ sortNats (dedupNats (plan.map (fun t => t.step_number)))
      rw [mem_sortNats, mem_dedupNats]
      exact List.mem_map_of_mem (fun t => t.step_number) hs
    · intro m hm
      exact absurd hm (List.not_mem_nil m)

/-- Witness for `C2_scheduler_terminates_and_deadlock`: the concrete plan
`{1: [], 2: [99]}` under an all-succeeding registry deadlocks with step 2
among the unresolved ids. -/
theorem C2_deadlock_witness :
    ∃ st2 L, runSchedulerV2 toolOkAll advisorNone [exStep1, exStep2dangling]
        = .done st2 ∧ st2.deadlock = some L ∧ 2 ∈ L :=
  (C2_scheduler_terminates_and_deadlock toolOkAll advisorNone
      [exStep1, exStep2dangling]).2 exStep2dangling 99
    (fun _ => ⟨"done".data, rfl⟩) (by decide) (by decide) (by decide)
    (by decide)

/-- C2, counterexample to the claim as stated: for the dangling-dependency
plan `{1: [], 2: [99]}` whose step 1 raises, the execution phase does not
abort with a deadlock diagnostic — it aborts with the `ValidationError`
raised while converting step 1's failure (`tool_call=None`), so no
diagnostic listing the unresolved ids is ever produced. -/
theorem C2_deadlock_counterexample :
    runSchedulerV2 toolFailStep1 advisorNone [exStep1, exStep2dangling]
      = .raised toolCallNoneError := rfl
